import Mathlib

/-!
Shallow embedding of the apollo-tooling sources for verification of the
specification's claims.

Embedded units:
* `src/unnamed/part_000` — the `ServiceCheck` oclif command
  (`validateHistoricParams`, the tail of `run`).
* `src/packages/apollo-codegen-swift/src/codeGeneration.ts` — the Swift
  code-generation back end (`generateSource`, `classDeclarationForOperation`,
  `enumerationDeclaration`, `propertyDeclarationForVariant`, the conditional
  fragment-spread accessors, `parametersForProperties`).

Repository code imported by `codeGeneration.ts` but absent from `src/`
(the `apollo-codegen-core` visitors, `language.ts`, `helpers.ts`, the
`diff` module) is modelled from the specification; each such definition
carries a doc comment beginning `Modelled from the spec:`.

JavaScript numbers reachable in the embedded code carry no NaN except
through `Number(string)`, which is modelled as a function into
`Option Rat` (`none` = NaN).
-/

namespace ApolloTooling

/-! ## ServiceCheck (`src/unnamed/part_000`) -/

/-- Modelled from the spec: the `ChangeType` enum of the repository's
`diff` module (not included under `src/`); the check command only
distinguishes `FAILURE` from the rest. -/
inductive ChangeType where
  | FAILURE
  | WARNING
  | NOTICE
deriving DecidableEq

/-- A schema change as consumed by `ServiceCheck.run` (`part_000`):
`format` maps it to a table row with columns type/code/description. -/
structure SchemaChange where
  type : ChangeType
  code : String
  description : String
deriving DecidableEq

/-- Observable outcome of the tail of `ServiceCheck.run` (`part_000`
lines 76–98): whether the no-changes message was logged, the table rows
rendered (if any), and whether `this.exit()` was reached. -/
structure RunOutcome (Row : Type) where
  loggedNoChanges : Bool
  renderedTable : Option (List Row)
  exitCalled : Bool
deriving DecidableEq

/-- Embedding of `ServiceCheck.run` after `checkSchemaResult` is
obtained (`part_000` lines 76–98).  `format` is the repository's
`diff.format` (external to `src/`), kept abstract as a parameter.
The source computes `failures = changes.filter(type === FAILURE)`,
returns after logging when `changes.length === 0`, otherwise renders
`table(changes.map(format))` and calls `this.exit()` iff
`failures.length > 0`. -/
def serviceCheckRun {Row : Type} (format : SchemaChange → Row)
    (changes : List SchemaChange) : RunOutcome Row :=
  let failures := changes.filter (fun c => c.type == ChangeType.FAILURE)
  if changes.length = 0 then
    { loggedNoChanges := true, renderedTable := none, exitCalled := false }
  else
    { loggedNoChanges := false
      renderedTable := some (changes.map format)
      exitCalled := decide (0 < failures.length) }

/-- Error message for the `--to` flag (`part_000` lines 121–123). -/
def msgTo : String :=
  "Please provide a valid number for the --to flag. Valid numbers are in the range x <= -0."

/-- Error message for the `--from` flag (`part_000` lines 132–134). -/
def msgFrom : String :=
  "Please provide a valid number for the --from flag. Valid numbers are integers in the range x < -0, and --from must be less than --to."

/-- Error message for the `--queryCountThreshold` flag (`part_000` lines 138–140). -/
def msgQueryCountThreshold : String :=
  "Please provide a valid number for the --queryCountThreshold flag. Valid numbers are integers in the range x >= 1."

/-- Error message for the `--queryCountThresholdPercentage` flag (`part_000` lines 147–149). -/
def msgQueryCountThresholdPercentage : String :=
  "Please provide a valid number for the --queryCountThresholdPercentage flag. Valid numbers are in the range 0 <= x <= 100."

/-- The `HistoricQueryParameters` record returned by
`validateHistoricParams` (field `from` is a Lean keyword, hence quoted). -/
structure HistoricQueryParameters where
  «to» : Rat
  «from» : Rat
  queryCountThreshold : Rat
  queryCountThresholdPercentage : Rat
deriving DecidableEq

/-- Embedding of `ServiceCheck.validateHistoricParams` (`part_000` lines
101–160).  `Number` is JavaScript's `Number(string)` builtin, modelled
as a parameter returning `none` for NaN; `Number.isInteger q` is
`q.den = 1` on a non-NaN value.  Each `if` of the source ors several
conditions into one throw of a single message, so the NaN test is
folded into the outer `match` (same error either way).  A JS `throw`
is `Except.error`. -/
def validateHistoricParams (Number : String → Option Rat)
    (toStr fromStr : String)
    (queryCountThreshold queryCountThresholdPercentage : Rat) :
    Except String HistoricQueryParameters :=
  match Number toStr with
  | none => .error msgTo
  | some toNum =>
    if toStr = "0" ∨ 0 < toNum ∨ ¬ toNum.den = 1 then .error msgTo
    else
      match Number fromStr with
      | none => .error msgFrom
      | some fromNum =>
        if fromStr = "0" ∨ toNum ≤ fromNum ∨ ¬ fromNum.den = 1 then
          .error msgFrom
        else if ¬ queryCountThreshold.den = 1 ∨ queryCountThreshold < 1 then
          .error msgQueryCountThreshold
        else if queryCountThresholdPercentage < 0 ∨ 100 < queryCountThresholdPercentage then
          .error msgQueryCountThresholdPercentage
        else
          .ok { «to» := toNum
                «from» := fromNum
                queryCountThreshold := queryCountThreshold
                queryCountThresholdPercentage := queryCountThresholdPercentage / 100 }

/-! ## Swift code generation (`codeGeneration.ts`): data model -/

/-- A GraphQL type reference: a named schema type wrapped by `NonNull`
and `List` modifiers (the `graphql` package's type algebra as used by
`codeGeneration.ts`). -/
inductive GraphQLType where
  | named (name : String)
  | nonNull (ofType : GraphQLType)
  | list (ofType : GraphQLType)
deriving DecidableEq

/-- `isNonNullType` of the `graphql` package. -/
def isNonNullType : GraphQLType → Bool
  | .nonNull _ => true
  | _ => false

/-- `isListType` of the `graphql` package. -/
def isListType : GraphQLType → Bool
  | .list _ => true
  | _ => false

/-- The `.ofType` accessor of wrapper types (identity on named types,
where the source never reads it). -/
def GraphQLType.ofType : GraphQLType → GraphQLType
  | .nonNull t => t
  | .list t => t
  | .named n => .named n

mutual
/-- A selection of the Selection IR (`apollo-codegen-core` compiler IR
as consumed by `codeGeneration.ts`): a field with an optional nested
selection set, a fragment spread by name, a type condition, or a
boolean condition. -/
inductive Selection where
  | field (name : String) (typeRef : GraphQLType)
      (selectionSet : Option SelectionSet)
  | fragmentSpread (fragmentName : String)
  | typeCondition (selectionSet : SelectionSet)
  | booleanCondition (variableName : String) (inverted : Bool)
      (selectionSet : SelectionSet)

/-- A selection set: its concrete `possibleTypes` (type names) and its
ordered selections. -/
inductive SelectionSet where
  | mk (possibleTypes : List String) (selections : List Selection)
end

/-- The possible concrete type names of a selection set. -/
def SelectionSet.possibleTypes : SelectionSet → List String
  | .mk pts _ => pts

/-- The ordered selections of a selection set. -/
def SelectionSet.selections : SelectionSet → List Selection
  | .mk _ sels => sels

/-- A fragment of the Selection IR: name, selection set, source text,
input file path. -/
structure Fragment where
  fragmentName : String
  selectionSet : SelectionSet
  source : String
  filePath : String

/-- An operation of the Selection IR: name, kind, variables
(name and type), source text, root selection set, input file path, and
the mutable-once derived `operationId`. -/
structure Operation where
  operationName : String
  operationType : String
  «variables» : List (String × GraphQLType)
  source : String
  selectionSet : SelectionSet
  filePath : String
  operationId : Option String

/-- The fragment lookup table of the compiler context: fragment name to
`Fragment` (a JS object used as a map). -/
abbrev FragmentTable : Type := List (String × Fragment)

/-- Name lookup in the fragment table. -/
def lookupFragment (fragments : FragmentTable) (name : String) :
    Option Fragment :=
  (List.find? (fun p => p.1 = name) fragments).map (fun p => p.2)

/-- The options consumed by the Swift back end (`Options` plus the
compiler-context options read by `codeGeneration.ts`; `namespace` is a
Lean keyword, hence quoted). -/
structure Options where
  «namespace» : Option String
  mergeInFieldsFromFragmentSpreads : Bool
  generateOperationIds : Bool
deriving DecidableEq

/-! ## Fragment reference collection (spec §4.3) -/

/-- Modelled from the spec: `collectFragmentsReferenced`
(`apollo-codegen-core/lib/compiler/visitors/collectFragmentsReferenced`,
absent from `src/`), §4.3: depth-first traversal over declaration
order of every fragment spread reachable from a selection set,
transitively through referenced fragments' selection sets, visiting
each fragment at most once.  The accumulator holds the discovered
names in reverse discovery order; `fuel` bounds descents into the
fragment table (any `fuel ≥` number of fragments is exhaustive, and
the membership check keeps the traversal cycle-safe).  A spread whose
name is not in the table is recorded but not descended into. -/
def collectGo (fragments : FragmentTable) :
    Nat → List Selection → List String → List String
  | _, [], acc => acc
  | fuel, .field _ _ none :: rest, acc => collectGo fragments fuel rest acc
  | fuel, .field _ _ (some (.mk _ ssSels)) :: rest, acc =>
    collectGo fragments fuel rest (collectGo fragments fuel ssSels acc)
  | fuel, .typeCondition (.mk _ ssSels) :: rest, acc =>
    collectGo fragments fuel rest (collectGo fragments fuel ssSels acc)
  | fuel, .booleanCondition _ _ (.mk _ ssSels) :: rest, acc =>
    collectGo fragments fuel rest (collectGo fragments fuel ssSels acc)
  | fuel, .fragmentSpread f :: rest, acc =>
    if f ∈ acc then collectGo fragments fuel rest acc
    else
      match fuel, lookupFragment fragments f with
      | 0, _ => collectGo fragments 0 rest (f :: acc)
      | fuel + 1, none => collectGo fragments fuel rest (f :: acc)
      | fuel + 1, some frag =>
        collectGo fragments fuel rest
          (collectGo fragments fuel frag.selectionSet.selections (f :: acc))
termination_by fuel sels _ => (fuel, sizeOf sels)

/-- Modelled from the spec: the collector's result in first-discovery
order (§4.3); the operation's transitive fragment-spread closure. -/
def collectFragmentsReferenced (selectionSet : SelectionSet)
    (fragments : FragmentTable) : List String :=
  (collectGo fragments (fragments.length + 1) selectionSet.selections []).reverse

/-! ## Helper transforms (`language.ts` / `helpers.ts`, absent from `src/`) -/

/-- Modelled from the spec: `escapeIdentifierIfNeeded` of `language.ts`
(absent from `src/`), the language-safe identifier transform of §4.5.
None of the claims depends on the escaping itself, so it is modelled as
the identity transform. -/
def escapeIdentifierIfNeeded (identifier : String) : String := identifier

/-- Modelled from the spec: `helpers.operationClassName` (absent from
`src/`), a language-safe name transform; modelled as the identity. -/
def operationClassName (name : String) : String := name

/-- Modelled from the spec: `helpers.structNameForFragmentName` (absent
from `src/`), a language-safe name transform; modelled as the identity. -/
def structNameForFragmentName (fragmentName : String) : String := fragmentName

/-- Modelled from the spec: `helpers.enumCaseName` (absent from `src/`),
a language-safe case-name transform; modelled as the identity. -/
def enumCaseName (name : String) : String := name

/-- Modelled from the spec: `helpers.typeNameFromGraphQLType` (absent
from `src/`): Swift nullability/list wrapping derived directly from the
`TypeRef` (§4.5) — a non-null wrapper drops the `?` suffix, a list maps
to a bracketed element type. -/
def typeNameFromGraphQLTypeCore : GraphQLType → Bool → String
  | .nonNull t, _ => typeNameFromGraphQLTypeCore t false
  | .list t, nullable =>
    if nullable then "[" ++ typeNameFromGraphQLTypeCore t true ++ "]?"
    else "[" ++ typeNameFromGraphQLTypeCore t true ++ "]"
  | .named n, nullable => if nullable then n ++ "?" else n

/-- Modelled from the spec: the Swift type name of a `TypeRef` at its
outermost (nullable-by-default) position. -/
def typeNameFromGraphQLType (t : GraphQLType) : String :=
  typeNameFromGraphQLTypeCore t true

/-- The fragment source text emitted as `static let fragmentDefinition`
by `structDeclarationForFragment` (`codeGeneration.ts` lines 318–324);
empty for a name missing from the table (such a name would not compile
in the generated Swift). -/
def fragmentDefinitionText (fragments : FragmentTable) (name : String) :
    String :=
  match lookupFragment fragments name with
  | some frag => frag.source
  | none => ""

/-! ## Operation identifier (spec §4.4) -/

/-- Modelled from the spec: the 256-bit cryptographic digest of §4.4 in
hex encoding; modelled as a deterministic executable digest over the
input string (the claims depend on when the digest is invoked, not on
its collision resistance). -/
def digestHex (s : String) : String :=
  (Nat.toDigits 16
    (s.foldl (fun h c => (h * 131 + c.toNat) % (2 ^ 256)) 7)).asString

/-- Modelled from the spec: `generateOperationId`
(`apollo-codegen-core/lib/compiler/visitors/generateOperationId`,
absent from `src/`), §4.4: concatenate the operation's own source with
every transitively referenced fragment's source, in the closure's
traversal order, separated by a fixed delimiter, and digest the
concatenation. -/
def generateOperationId (operation : Operation) (fragments : FragmentTable)
    (fragmentsReferenced : List String) : String :=
  digestHex (String.intercalate "\n"
    (operation.source :: fragmentsReferenced.map (fragmentDefinitionText fragments)))

/-! ## Operation emission (`classDeclarationForOperation`) -/

/-- A synthesized property (`Property` of `language.ts` as built from an
operation variable at `codeGeneration.ts` lines 251–258). -/
structure Property where
  name : String
  propertyName : String
  type : GraphQLType
  typeName : String
  isOptional : Bool
deriving DecidableEq

/-- One rendered initializer parameter of `parametersForProperties`
(`codeGeneration.ts` lines 832–846): `name: TypeName` followed by
` = nil` exactly when the property is optional. -/
def parameterForProperty (p : Property) : String :=
  escapeIdentifierIfNeeded p.propertyName ++ ": " ++ p.typeName ++
    (if p.isOptional then " = nil" else "")

/-- The full rendered parameter list of `parametersForProperties`. -/
def parametersForProperties (properties : List Property) : String :=
  "(" ++ String.intercalate ", " (properties.map parameterForProperty) ++ ")"

/-- The property synthesized from one operation variable
(`codeGeneration.ts` lines 251–258): `isOptional` is
`!(isNonNullType(type) || (isListType(type) && isNonNullType(type.ofType)))`. -/
def propertyFromVariable (nt : String × GraphQLType) : Property :=
  { name := nt.1
    propertyName := nt.1
    type := nt.2
    typeName := typeNameFromGraphQLType nt.2
    isOptional := !(isNonNullType nt.2 ||
      (isListType nt.2 && isNonNullType nt.2.ofType)) }

/-- The switch of `classDeclarationForOperation` (`codeGeneration.ts`
lines 171–188): class-name suffix and adopted protocol per operation
kind, `none` for the default (throwing) arm. -/
def protocolFor (operationType : String) : Option (String × String) :=
  if operationType = "query" then some ("Query", "GraphQLQuery")
  else if operationType = "mutation" then some ("Mutation", "GraphQLMutation")
  else if operationType = "subscription" then
    some ("Subscription", "GraphQLSubscription")
  else none

/-- The protocol the claims expect an operation kind to adopt. -/
def matchingProtocol (operationType : String) : String :=
  if operationType = "query" then "GraphQLQuery"
  else if operationType = "mutation" then "GraphQLMutation"
  else if operationType = "subscription" then "GraphQLSubscription"
  else ""

/-- The content of the class declaration emitted for one operation by
`classDeclarationForOperation` (`codeGeneration.ts` lines 156–295),
restricted to the members the claims concern; the nested `Data` struct
is emitted from the root selection set by the selection-set emission
modelled separately. -/
structure OperationClassDecl where
  className : String
  modifiers : List String
  adoptedProtocols : List String
  operationDefinition : Option String
  operationName : String
  operationIdentifier : Option String
  queryDocument : Option String
  properties : List Property
  parameters : String
deriving DecidableEq

/-- Embedding of `classDeclarationForOperation` (`codeGeneration.ts`
lines 156–295).  The unsupported-kind arm throws (`Except.error`)
before anything is emitted; the supported arms build the declaration
and, when `generateOperationIds` is set, cache the derived identifier
on the operation (the returned `Operation`).  `queryDocument` is the
`.appending` chain over the referenced fragments (lines 233–246),
emitted only when at least one fragment is referenced. -/
def classDeclarationForOperation (options : Options)
    (fragments : FragmentTable) (operation : Operation)
    (outputIndividualFiles : Bool) :
    Except String (Operation × OperationClassDecl) :=
  match protocolFor operation.operationType with
  | none =>
    .error ("Unsupported operation type \"" ++ operation.operationType ++ "\"")
  | some (suffix, protocol) =>
    let className := operationClassName operation.operationName ++ suffix
    let isRedundant := options.namespace.isSome && outputIndividualFiles
    let modifiers := if isRedundant then ["final"] else ["public", "final"]
    let fragmentsReferenced :=
      collectFragmentsReferenced operation.selectionSet fragments
    let cached :=
      if options.generateOperationIds then
        let operationId :=
          generateOperationId operation fragments fragmentsReferenced
        ({ operation with operationId := some operationId }, some operationId)
      else (operation, none)
    let queryDocument :=
      if fragmentsReferenced.isEmpty then none
      else some (fragmentsReferenced.foldl
        (fun acc f => acc ++ fragmentDefinitionText fragments f)
        operation.source)
    let properties := operation.variables.map propertyFromVariable
    .ok (cached.1,
      { className := className
        modifiers := modifiers
        adoptedProtocols := [protocol]
        operationDefinition :=
          if operation.source = "" then none else some operation.source
        operationName := operation.operationName
        operationIdentifier := cached.2
        queryDocument := queryDocument
        properties := properties
        parameters := parametersForProperties properties })

/-! ## `generateSource` (`codeGeneration.ts` lines 59–130) -/

/-- The compiler context as consumed by `generateSource`: options, the
operation map, the fragment table (`typesUsed` carries no claim-relevant
content beyond the enum model below and is omitted). -/
structure CompilerContext where
  options : Options
  operations : List Operation
  fragments : FragmentTable

/-- First-occurrence insertion into a JS `Set` modelled as a list. -/
def insertUnique (l : List String) (x : String) : List String :=
  if x ∈ l then l else l ++ [x]

/-- The `inputFilePaths` set of `generateSource` (lines 77–85),
restricted to operations: distinct file paths in first-occurrence
order. -/
def inputFilePathsOf (operations : List Operation) : List String :=
  (operations.map (fun op => op.filePath)).foldl insertUnique []

/-- Embedding of `generateSource` (`codeGeneration.ts` lines 59–130)
restricted to the operation class declarations (type and fragment
declarations carry no claim-relevant flag dependence in the embedded
members).  With `outputIndividualFiles` one output unit is produced per
input file path (honouring the `only` filter), each holding the
declarations of the operations with that path; otherwise a single
output unit holds every operation's declaration. -/
def generateSource (context : CompilerContext)
    (outputIndividualFiles : Bool) (only : Option String) :
    List (String × List (Except String (Operation × OperationClassDecl))) :=
  if outputIndividualFiles then
    (inputFilePathsOf context.operations).filterMap (fun inputFilePath =>
      match only with
      | some o => if inputFilePath ≠ o then none else
          some (inputFilePath ++ ".swift",
            (context.operations.filter (fun op => op.filePath = inputFilePath)).map
              (fun op => classDeclarationForOperation context.options
                context.fragments op true))
      | none =>
          some (inputFilePath ++ ".swift",
            (context.operations.filter (fun op => op.filePath = inputFilePath)).map
              (fun op => classDeclarationForOperation context.options
                context.fragments op true)))
  else
    [("", context.operations.map (fun op =>
      classDeclarationForOperation context.options context.fragments op false))]

/-- All operation declarations produced by `generateSource`, in output
order, forgetting the grouping into output units. -/
def generateSourceDecls (context : CompilerContext)
    (outputIndividualFiles : Bool) :
    List (Except String (Operation × OperationClassDecl)) :=
  ((generateSource context outputIndividualFiles none).map
    (fun unit => unit.2)).flatten

/-! ## Enum emission (`enumerationDeclaration`, lines 975–1070) -/

/-- A declared GraphQL enum value (`type.getValues()` entry): its Swift
case is derived from `name`, its raw string is `value`. -/
structure EnumValue where
  name : String
  value : String
deriving DecidableEq

/-- A value of the emitted Swift enum: one known case per declared
value, plus the reserved `__unknown` catch-all carrying the raw
string. -/
inductive SwiftEnumCase where
  | known (value : EnumValue)
  | unknown (rawValue : String)
deriving DecidableEq

/-- The case labels emitted by `enumerationDeclaration` (lines
987–1000): one case per declared value, then the reserved catch-all. -/
def enumCaseLabels (values : List EnumValue) : List String :=
  values.map (fun v => escapeIdentifierIfNeeded (enumCaseName v.name)) ++
    ["__unknown(RawValue)"]

/-- Semantics of the emitted `init?(rawValue:)` (lines 1003–1016): a
Swift `switch` over the raw string matches the declared raw values in
declaration order and defaults to `.__unknown(rawValue)`. -/
def enumInitRawValue : List EnumValue → String → SwiftEnumCase
  | [], rawValue => .unknown rawValue
  | v :: rest, rawValue =>
    if v.value = rawValue then .known v else enumInitRawValue rest rawValue

/-- Semantics of the emitted `var rawValue` (lines 1019–1032): a known
case returns its declared raw string, the catch-all returns the carried
string. -/
def enumRawValue : SwiftEnumCase → String
  | .known v => v.value
  | .unknown value => value

/-- Semantics of the emitted `==` (lines 1035–1053): known cases
compare by case identity, two unknown values by their raw strings. -/
def enumEq : SwiftEnumCase → SwiftEnumCase → Bool
  | .known l, .known r => enumCaseName l.name == enumCaseName r.name
  | .unknown l, .unknown r => l == r
  | _, _ => false

/-! ## Narrowing accessors (`codeGeneration.ts` lines 505–543, 796–817) -/

/-- A JSON scalar stored in the generic `ResultMap` container (composite
values are themselves maps and are not needed by the claims). -/
inductive JSONValue where
  | str (s : String)
  | num (q : Rat)
  | boolean (b : Bool)
  | null
deriving DecidableEq

/-- The generic `ResultMap` runtime container backing every generated
struct. -/
abbrev ResultMap : Type := List (String × JSONValue)

/-- The runtime type discriminator: the string stored under the
reserved `"__typename"` key (`resultMap["__typename"]! as! String`);
`none` when the key is absent or not a string, where the generated
Swift would trap. -/
def typenameOf (resultMap : ResultMap) : Option String :=
  match List.find? (fun p => p.1 = "__typename") resultMap with
  | some (_, JSONValue.str s) => some s
  | _ => none

/-- A populated typed view over the shared container (the generated
struct value `Struct(unsafeResultMap: resultMap)`). -/
structure SwiftStructView where
  resultMap : ResultMap

/-- Semantics of the getter emitted by `propertyDeclarationForVariant`
(lines 796–817) for a variant with the given `possibleTypes`:
`if !Struct.possibleTypes.contains(__typename) { return nil }` then
`return Struct(unsafeResultMap: resultMap)`.  The outer `Option` is
`none` when reading the discriminator would trap. -/
def variantAccessorGet (possibleTypes : List String)
    (resultMap : ResultMap) : Option (Option SwiftStructView) :=
  match typenameOf resultMap with
  | none => none
  | some typename =>
    some (if typename ∈ possibleTypes then some ⟨resultMap⟩ else none)

/-- The `isConditional` computation for a fragment spread (lines
460–468): conditional iff some possible type of the enclosing variant
lies outside the spread's possible types. -/
def fragmentSpreadIsConditional (variantPossibleTypes : List String)
    (spreadPossibleTypes : List String) : Bool :=
  variantPossibleTypes.any (fun t => !(spreadPossibleTypes.contains t))

/-- Semantics of the fragment accessor getter emitted inside the
`Fragments` struct (lines 505–543): when conditional it guards on
`Struct.possibleTypes.contains(resultMap["__typename"]! as! String)`
and returns `nil` on failure; when unconditional it returns the
populated view without reading the discriminator. -/
def fragmentAccessorGet (isConditional : Bool)
    (spreadPossibleTypes : List String) (resultMap : ResultMap) :
    Option (Option SwiftStructView) :=
  if isConditional then
    match typenameOf resultMap with
    | none => none
    | some typename =>
      some (if typename ∈ spreadPossibleTypes then some ⟨resultMap⟩ else none)
  else some (some ⟨resultMap⟩)

/-! ## Sample data for witnesses and counterexamples -/

/-- A polymorphic selection set spreading one named fragment. -/
def heroSelectionSet : SelectionSet :=
  .mk ["Human", "Droid"] [.fragmentSpread "HeroDetails"]

/-- A fragment referenced only through `heroDetailsFragment`. -/
def moreDetailsFragment : Fragment :=
  { fragmentName := "MoreDetails"
    selectionSet := .mk ["Droid"] []
    source := "fragment MoreDetails on Droid"
    filePath := "HeroDetails.graphql" }

/-- A fragment spread directly by `heroSelectionSet` that itself
spreads `MoreDetails`. -/
def heroDetailsFragment : Fragment :=
  { fragmentName := "HeroDetails"
    selectionSet := .mk ["Human", "Droid"] [.fragmentSpread "MoreDetails"]
    source := "fragment HeroDetails on Character"
    filePath := "HeroDetails.graphql" }

/-- A two-entry fragment table. -/
def sampleFragments : FragmentTable :=
  [("HeroDetails", heroDetailsFragment), ("MoreDetails", moreDetailsFragment)]

/-- A query operation over `heroSelectionSet`. -/
def sampleOperation : Operation :=
  { operationName := "HeroName"
    operationType := "query"
    «variables» := []
    source := "query HeroName"
    selectionSet := heroSelectionSet
    filePath := "HeroName.graphql"
    operationId := none }

/-- Options: no namespace, no merging, no operation ids. -/
def optsPlain : Options :=
  { «namespace» := none
    mergeInFieldsFromFragmentSpreads := false
    generateOperationIds := false }

/-- Options: no namespace, operation-id generation enabled. -/
def optsIds : Options :=
  { «namespace» := none
    mergeInFieldsFromFragmentSpreads := false
    generateOperationIds := true }

/-- Options with a configured namespace. -/
def optsNamespaced : Options :=
  { «namespace» := some "StarWarsAPI"
    mergeInFieldsFromFragmentSpreads := false
    generateOperationIds := false }

/-- A context with a namespace, used to exhibit the mode-dependent
modifier difference. -/
def contextNamespaced : CompilerContext :=
  { options := optsNamespaced
    operations := [sampleOperation]
    fragments := [] }

/-- An all-empty declaration, used as a default when destructuring
emission results in sample computations. -/
def emptyOperationClassDecl : OperationClassDecl :=
  { className := ""
    modifiers := []
    adoptedProtocols := []
    operationDefinition := none
    operationName := ""
    operationIdentifier := none
    queryDocument := none
    properties := []
    parameters := "" }

/-- The concrete emission of `sampleOperation` with identifier
generation enabled. -/
def sampleEmission : Operation × OperationClassDecl :=
  (classDeclarationForOperation optsIds sampleFragments sampleOperation
    false).toOption.getD (sampleOperation, emptyOperationClassDecl)

/-- A runtime container whose discriminator is `"Droid"`. -/
def droidResultMap : ResultMap := [("__typename", JSONValue.str "Droid")]

/-- Two declared enum values. -/
def sampleEnumValues : List EnumValue :=
  [{ name := "NEWHOPE", value := "NEWHOPE" },
   { name := "EMPIRE", value := "EMPIRE" }]

/-! ## Shared lemmas -/

theorem string_join_eq (l : List String) :
    ∀ init : String,
      l.foldl (fun acc x => acc ++ x) init = init ++ String.join l := by
  induction l with
  | nil => intro init; simp [String.join]
  | cons x rest ih =>
    intro init
    have hj : String.join (x :: rest) = x ++ String.join rest := by
      have h1 : String.join (x :: rest) =
          rest.foldl (fun acc y => acc ++ y) x := by
        simp [String.join]
      rw [h1, ih x]
    rw [List.foldl_cons, ih (init ++ x), hj, String.append_assoc]

theorem string_foldl_append_map (g : String → String) (l : List String)
    (init : String) :
    l.foldl (fun acc x => acc ++ g x) init = init ++ String.join (l.map g) := by
  rw [← List.foldl_map, string_join_eq]

theorem collectGo_nodup (fragments : FragmentTable) :
    ∀ fuel sels acc, acc.Nodup → (collectGo fragments fuel sels acc).Nodup := by
  intro fuel sels acc
  induction fuel, sels, acc using collectGo.induct fragments with
  | case1 fuel acc => intro h; simp only [collectGo]; exact h
  | case2 fuel name typeRef rest acc ih =>
    intro h; simp only [collectGo]; exact ih h
  | case3 fuel name typeRef pts ssSels rest acc ih1 ih2 =>
    intro h; simp only [collectGo]; exact ih2 (ih1 h)
  | case4 fuel pts ssSels rest acc ih1 ih2 =>
    intro h; simp only [collectGo]; exact ih2 (ih1 h)
  | case5 fuel vn inv pts ssSels rest acc ih1 ih2 =>
    intro h; simp only [collectGo]; exact ih2 (ih1 h)
  | case6 fuel f rest acc hmem ih =>
    intro h
    rw [collectGo.eq_def]
    simp only [hmem, if_true, reduceIte]
    exact ih h
  | case7 f rest acc hmem ih =>
    intro h
    rw [collectGo.eq_def]
    simp only [hmem, reduceIte]
    exact ih (List.nodup_cons.mpr ⟨hmem, h⟩)
  | case8 f rest acc hmem fuel hlook ih =>
    intro h
    rw [collectGo.eq_def]
    simp only [hmem, reduceIte]
    rw [hlook]
    exact ih (List.nodup_cons.mpr ⟨hmem, h⟩)
  | case9 f rest acc hmem fuel frag hlook ih1 ih2 =>
    intro h
    rw [collectGo.eq_def]
    simp only [hmem, reduceIte]
    rw [hlook]
    exact ih2 (ih1 (List.nodup_cons.mpr ⟨hmem, h⟩))

theorem collectFragmentsReferenced_nodup (selectionSet : SelectionSet)
    (fragments : FragmentTable) :
    (collectFragmentsReferenced selectionSet fragments).Nodup := by
  unfold collectFragmentsReferenced
  exact List.nodup_reverse.mpr
    (collectGo_nodup fragments _ _ _ List.nodup_nil)

/-! ## Claim theorems -/

/-- C9: `validateHistoricParams` returns a result if and only if `to`
parses to an integer ≤ 0 and is not the literal `"0"`, `from` parses to
an integer strictly below the parsed `to` and is not the literal `"0"`,
`queryCountThreshold` is an integer ≥ 1, and
`queryCountThresholdPercentage` lies in `[0, 100]`; the returned record
carries the parsed `to` and `from`, `queryCountThreshold` unchanged,
and `queryCountThresholdPercentage / 100` (which lies in `[0, 1]`); on
any violated condition it throws instead. -/
theorem validateHistoricParams_ok_iff (Number : String → Option Rat)
    (toStr fromStr : String) (qct qctp : Rat)
    (r : HistoricQueryParameters) :
    validateHistoricParams Number toStr fromStr qct qctp = Except.ok r ↔
      (∃ toNum fromNum : Rat,
        Number toStr = some toNum ∧ Number fromStr = some fromNum ∧
        toStr ≠ "0" ∧ toNum ≤ 0 ∧ toNum.den = 1 ∧
        fromStr ≠ "0" ∧ fromNum < toNum ∧ fromNum.den = 1 ∧
        qct.den = 1 ∧ 1 ≤ qct ∧
        0 ≤ qctp ∧ qctp ≤ 100 ∧ 0 ≤ qctp / 100 ∧ qctp / 100 ≤ 1 ∧
        r = ⟨toNum, fromNum, qct, qctp / 100⟩) := by
  constructor
  · intro h
    unfold validateHistoricParams at h
    split at h
    · simp at h
    · rename_i toNum hTo
      split at h
      · simp at h
      · rename_i h1
        push_neg at h1
        obtain ⟨h1a, h1b, h1c⟩ := h1
        split at h
        · simp at h
        · rename_i fromNum hFrom
          split at h
          · simp at h
          · rename_i h2
            push_neg at h2
            obtain ⟨h2a, h2b, h2c⟩ := h2
            split at h
            · simp at h
            · rename_i h3
              push_neg at h3
              split at h
              · simp at h
              · rename_i h4
                push_neg at h4
                rw [Except.ok.injEq] at h
                exact ⟨toNum, fromNum, hTo, hFrom, h1a, h1b, h1c,
                  h2a, h2b, h2c, h3.1, h3.2, h4.1, h4.2,
                  div_nonneg h4.1 (by norm_num),
                  by rw [div_le_one (by norm_num : (0:Rat) < 100)]; exact h4.2,
                  h.symm⟩
  · rintro ⟨toNum, fromNum, hTo, hFrom, hTo0, hToLe, hToInt, hFrom0,
      hFromLt, hFromInt, hQctInt, hQct1, hP0, hP100, _, _, hr⟩
    subst hr
    have hc1 : ¬ (toStr = "0" ∨ 0 < toNum ∨ ¬ toNum.den = 1) := by
      push_neg
      exact ⟨hTo0, hToLe, hToInt⟩
    have hc2 : ¬ (fromStr = "0" ∨ toNum ≤ fromNum ∨ ¬ fromNum.den = 1) := by
      push_neg
      exact ⟨hFrom0, hFromLt, hFromInt⟩
    have hc3 : ¬ (¬ qct.den = 1 ∨ qct < 1) := by
      push_neg
      exact ⟨hQctInt, hQct1⟩
    have hc4 : ¬ (qctp < 0 ∨ 100 < qctp) := by
      push_neg
      exact ⟨hP0, hP100⟩
    simp only [validateHistoricParams, hTo, hFrom, if_neg hc1, if_neg hc2,
      if_neg hc3, if_neg hc4]

/-- C10: after a schema check, `ServiceCheck.run` logs the no-changes
message and renders no table exactly when the change list is empty;
otherwise it renders every change (via `format`) in the table; and it
reaches `this.exit()` — the arm the source comments "exit with failing
status" — if and only if at least one change has type `FAILURE`. -/
theorem serviceCheckRun_spec {Row : Type} (format : SchemaChange → Row)
    (changes : List SchemaChange) :
    (serviceCheckRun format changes).loggedNoChanges = changes.isEmpty
    ∧ (serviceCheckRun format changes).renderedTable =
        (if changes.isEmpty then none else some (changes.map format))
    ∧ ((serviceCheckRun format changes).exitCalled = true ↔
        ∃ c ∈ changes, c.type = ChangeType.FAILURE) := by
  unfold serviceCheckRun
  by_cases h : changes.length = 0
  · have he : changes = [] := List.length_eq_zero.mp h
    subst he
    simp
  · have hne : changes ≠ [] := fun hc => h (by simp [hc])
    have hie : changes.isEmpty = false := by
      simp [List.isEmpty_iff, hne]
    simp only [h, if_false, hie, Bool.false_eq_true, if_neg]
    refine ⟨by trivial, by trivial, ?_⟩
    rw [decide_eq_true_iff, List.length_pos, Ne, List.filter_eq_nil_iff]
    push_neg
    constructor
    · rintro ⟨c, hc, hp⟩
      exact ⟨c, hc, by simpa using hp⟩
    · rintro ⟨c, hc, hp⟩
      exact ⟨c, hc, by simpa using hp⟩

/-- C1: the generated narrowing accessor for a variant, and the
accessor for a conditional fragment spread, return a populated view
over the shared container iff the runtime discriminator stored under
the reserved `"__typename"` key is a member of the variant's (resp.
spread's) `possibleTypes`, and an absent (`nil`) value otherwise. -/
theorem narrowingAccessor_iff
    (possibleTypes variantPossibleTypes spreadPossibleTypes : List String)
    (resultMap : ResultMap) (typename : String)
    (h : typenameOf resultMap = some typename) :
    (variantAccessorGet possibleTypes resultMap
        = some (some ⟨resultMap⟩) ↔ typename ∈ possibleTypes)
    ∧ (variantAccessorGet possibleTypes resultMap = some none
        ↔ typename ∉ possibleTypes)
    ∧ (fragmentSpreadIsConditional variantPossibleTypes spreadPossibleTypes
          = true →
        ((fragmentAccessorGet
            (fragmentSpreadIsConditional variantPossibleTypes spreadPossibleTypes)
            spreadPossibleTypes resultMap = some (some ⟨resultMap⟩)
          ↔ typename ∈ spreadPossibleTypes)
        ∧ (fragmentAccessorGet
            (fragmentSpreadIsConditional variantPossibleTypes spreadPossibleTypes)
            spreadPossibleTypes resultMap = some none
          ↔ typename ∉ spreadPossibleTypes))) := by
  unfold variantAccessorGet fragmentAccessorGet
  rw [h]
  refine ⟨?_, ?_, ?_⟩
  · by_cases hm : typename ∈ possibleTypes <;> simp [hm]
  · by_cases hm : typename ∈ possibleTypes <;> simp [hm]
  · intro hc
    rw [hc]
    constructor
    · by_cases hm : typename ∈ spreadPossibleTypes <;> simp [hm]
    · by_cases hm : typename ∈ spreadPossibleTypes <;> simp [hm]

theorem narrowingAccessor_witness :
    variantAccessorGet ["Droid"] droidResultMap = some (some ⟨droidResultMap⟩)
    ∧ variantAccessorGet ["Human"] droidResultMap = some none
    ∧ fragmentAccessorGet
        (fragmentSpreadIsConditional ["Human", "Droid"] ["Droid"])
        ["Droid"] droidResultMap = some (some ⟨droidResultMap⟩) := by
  have h1 := narrowingAccessor_iff ["Droid"] ["Human", "Droid"] ["Droid"]
    droidResultMap "Droid" rfl
  have h2 := narrowingAccessor_iff ["Human"] ["Human", "Droid"] ["Droid"]
    droidResultMap "Droid" rfl
  exact ⟨h1.1.mpr (by simp), h2.2.1.mpr (by simp),
    ((h1.2.2 (by decide)).1).mpr (by simp)⟩

/-- C2: the emitted enum has one case per declared value plus the
reserved catch-all; decoding a declared raw value yields the
corresponding known case, decoding an undeclared raw string yields the
catch-all carrying exactly that string, re-encoding the catch-all
returns the carried string, and decode-then-encode is the identity on
raw values. -/
theorem enumRoundTrip (values : List EnumValue) (rawValue : String) :
    enumRawValue (enumInitRawValue values rawValue) = rawValue
    ∧ (rawValue ∉ values.map EnumValue.value →
        enumInitRawValue values rawValue = .unknown rawValue)
    ∧ (rawValue ∈ values.map EnumValue.value →
        ∃ v, v ∈ values ∧ v.value = rawValue ∧
          enumInitRawValue values rawValue = .known v)
    ∧ (∀ s, enumRawValue (.unknown s) = s)
    ∧ enumCaseLabels values
        = values.map (fun v => enumCaseName v.name) ++ ["__unknown(RawValue)"] := by
  refine ⟨?_, ?_, ?_, fun s => rfl, rfl⟩
  · induction values with
    | nil => rfl
    | cons v rest ih =>
      by_cases hv : v.value = rawValue
      · simp [enumInitRawValue, hv, enumRawValue]
      · simp [enumInitRawValue, hv, ih]
  · induction values with
    | nil => intro _; rfl
    | cons v rest ih =>
      intro hmem
      simp only [List.map_cons, List.mem_cons] at hmem
      push_neg at hmem
      rw [enumInitRawValue, if_neg (Ne.symm hmem.1)]
      exact ih hmem.2
  · induction values with
    | nil => intro hmem; cases hmem
    | cons v rest ih =>
      intro hmem
      by_cases hv : v.value = rawValue
      · exact ⟨v, List.mem_cons_self v rest, hv,
          by rw [enumInitRawValue, if_pos hv]⟩
      · simp only [List.map_cons, List.mem_cons] at hmem
        rcases hmem with hmem | hmem
        · exact absurd hmem.symm hv
        · obtain ⟨w, hw1, hw2, hw3⟩ := ih hmem
          exact ⟨w, List.mem_cons_of_mem v hw1, hw2,
            by rw [enumInitRawValue, if_neg hv]; exact hw3⟩

theorem enumRoundTrip_witness :
    enumInitRawValue sampleEnumValues "FUTURE_VALUE"
      = .unknown "FUTURE_VALUE"
    ∧ (∃ v, v ∈ sampleEnumValues ∧ v.value = "NEWHOPE" ∧
        enumInitRawValue sampleEnumValues "NEWHOPE" = .known v) :=
  ⟨(enumRoundTrip sampleEnumValues "FUTURE_VALUE").2.1 (by decide),
   (enumRoundTrip sampleEnumValues "NEWHOPE").2.2.1 (by decide)⟩

/-- C3: operation emission succeeds — producing a class declaration
adopting the matching protocol — iff the operation's kind is query,
mutation or subscription; any other kind yields the
unsupported-operation error, and the `Except.error` result carries no
declaration (the source throws before emitting anything). -/
theorem classDeclarationForOperation_kind_gate (options : Options)
    (fragments : FragmentTable) (operation : Operation)
    (outputIndividualFiles : Bool) :
    ((∃ result, classDeclarationForOperation options fragments operation
          outputIndividualFiles = Except.ok result
        ∧ result.2.adoptedProtocols = [matchingProtocol operation.operationType])
      ↔ operation.operationType ∈ ["query", "mutation", "subscription"])
    ∧ (classDeclarationForOperation options fragments operation
          outputIndividualFiles
        = Except.error
            ("Unsupported operation type \"" ++ operation.operationType ++ "\"")
      ↔ operation.operationType ∉ ["query", "mutation", "subscription"]) := by
  unfold classDeclarationForOperation protocolFor matchingProtocol
  by_cases h1 : operation.operationType = "query"
  · simp [h1]
  · by_cases h2 : operation.operationType = "mutation"
    · simp [h1, h2]
    · by_cases h3 : operation.operationType = "subscription"
      · simp [h1, h2, h3]
      · simp [h1, h2, h3]

/-- C5 counterexample: the variable type `[String!]` (a nullable list
of non-null elements) is nullable, yet the synthesized parameter is
required: `isOptional` is `false` and the rendered parameter
`episode: [String]?` carries no `= nil` default. -/
theorem nullableListVariableParameter_counterexample :
    isNonNullType
      (GraphQLType.list (GraphQLType.nonNull (GraphQLType.named "String")))
      = false
    ∧ (propertyFromVariable ("episode",
        GraphQLType.list (GraphQLType.nonNull (GraphQLType.named "String")))).isOptional
      = false
    ∧ parameterForProperty (propertyFromVariable ("episode",
        GraphQLType.list (GraphQLType.nonNull (GraphQLType.named "String"))))
      = "episode: [String]?" := by
  refine ⟨rfl, rfl, ?_⟩
  decide

/-- C5 amended: the synthesized parameter is optional — rendered with
the ` = nil` default — iff the variable's declared type is neither
non-null nor a list type with a non-null element type; in particular a
nullable list of non-null elements yields a required parameter. -/
theorem parameterNilDefault_iff (name : String) (t : GraphQLType) :
    ((propertyFromVariable (name, t)).isOptional = true
      ↔ (isNonNullType t = false
          ∧ (isListType t && isNonNullType t.ofType) = false))
    ∧ parameterForProperty (propertyFromVariable (name, t))
        = escapeIdentifierIfNeeded name ++ ": " ++ typeNameFromGraphQLType t ++
          (if (propertyFromVariable (name, t)).isOptional then " = nil" else "") := by
  constructor
  · unfold propertyFromVariable
    cases t <;> simp [isNonNullType, isListType, GraphQLType.ofType]
  · rfl

theorem classDeclarationForOperation_ok (options : Options)
    (fragments : FragmentTable) (operation : Operation)
    (outputIndividualFiles : Bool) (cachedOperation : Operation)
    (decl : OperationClassDecl)
    (h : classDeclarationForOperation options fragments operation
        outputIndividualFiles = Except.ok (cachedOperation, decl)) :
    (cachedOperation = if options.generateOperationIds
        then { operation with
                 operationId := some (generateOperationId operation fragments
                   (collectFragmentsReferenced operation.selectionSet
                     fragments)) }
        else operation)
    ∧ decl.operationIdentifier = (if options.generateOperationIds
        then some (generateOperationId operation fragments
          (collectFragmentsReferenced operation.selectionSet fragments))
        else none)
    ∧ decl.queryDocument = (if (collectFragmentsReferenced
          operation.selectionSet fragments).isEmpty then none
        else some ((collectFragmentsReferenced
            operation.selectionSet fragments).foldl
          (fun acc f => acc ++ fragmentDefinitionText fragments f)
          operation.source)) := by
  unfold classDeclarationForOperation at h
  cases hp : protocolFor operation.operationType with
  | none => rw [hp] at h; simp at h
  | some pr =>
    rw [hp] at h
    by_cases hg : options.generateOperationIds
    · simp only [hg, if_true] at h ⊢
      rw [Except.ok.injEq, Prod.mk.injEq] at h
      obtain ⟨h1, h2⟩ := h
      exact ⟨h1.symm, by rw [← h2], by rw [← h2]⟩
    · simp only [hg, if_false, Bool.false_eq_true] at h ⊢
      rw [Except.ok.injEq, Prod.mk.injEq] at h
      obtain ⟨h1, h2⟩ := h
      exact ⟨h1.symm, by rw [← h2], by rw [← h2]⟩

/-- C4: for every successfully emitted operation, the send-text — the
emitted `queryDocument`, defaulting to the bare `operationDefinition`
when no fragment is referenced — equals the operation's own source
followed by the source of every collected fragment in the collector's
first-discovery order, which lists each fragment at most once. -/
theorem queryDocumentSendText (options : Options)
    (fragments : FragmentTable) (operation : Operation)
    (outputIndividualFiles : Bool) (cachedOperation : Operation)
    (decl : OperationClassDecl)
    (h : classDeclarationForOperation options fragments operation
        outputIndividualFiles = Except.ok (cachedOperation, decl)) :
    decl.queryDocument.getD operation.source
      = operation.source ++ String.join
          ((collectFragmentsReferenced operation.selectionSet fragments).map
            (fragmentDefinitionText fragments))
    ∧ (collectFragmentsReferenced operation.selectionSet fragments).Nodup := by
  obtain ⟨-, -, hq⟩ := classDeclarationForOperation_ok options fragments
    operation outputIndividualFiles cachedOperation decl h
  refine ⟨?_, collectFragmentsReferenced_nodup _ _⟩
  rw [hq]
  by_cases he : (collectFragmentsReferenced
      operation.selectionSet fragments).isEmpty
  · rw [if_pos he]
    have hnil : collectFragmentsReferenced operation.selectionSet fragments
        = [] := List.isEmpty_iff.mp he
    simp [hnil, String.join]
  · rw [if_neg he]
    simp only [Option.getD_some]
    exact string_foldl_append_map _ _ _

theorem queryDocumentSendText_witness :
    sampleEmission.2.queryDocument.getD sampleOperation.source
      = sampleOperation.source ++ String.join
          ((collectFragmentsReferenced sampleOperation.selectionSet
              sampleFragments).map (fragmentDefinitionText sampleFragments))
    ∧ (collectFragmentsReferenced sampleOperation.selectionSet
        sampleFragments).Nodup :=
  queryDocumentSendText optsIds sampleFragments sampleOperation false
    sampleEmission.1 sampleEmission.2 (by rfl)

/-- C6 counterexample: with a configured namespace the two output
modes do not produce the same declaration content — the single-file
mode emits `public final` while the per-file mode emits only `final`
for the same operation, so the flag changes the declarations, not just
their grouping. -/
theorem outputModeModifiers_counterexample :
    ((generateSourceDecls contextNamespaced true).map
        (fun e => e.toOption.map (fun result => result.2.modifiers)))
    ≠ ((generateSourceDecls contextNamespaced false).map
        (fun e => e.toOption.map (fun result => result.2.modifiers))) := by
  decide

/-- C6 amended: when no namespace is configured, each operation's
declaration content is identical across the two output modes; the
modes differ beyond grouping only in the `public` modifier dropped
when a namespace is set and individual files are emitted. -/
theorem outputModeContent_amended (options : Options)
    (fragments : FragmentTable) (operation : Operation)
    (h : options.namespace = none) :
    classDeclarationForOperation options fragments operation true
      = classDeclarationForOperation options fragments operation false := by
  unfold classDeclarationForOperation
  rw [h]
  simp

theorem outputModeContent_amended_witness :
    classDeclarationForOperation optsPlain sampleFragments sampleOperation true
      = classDeclarationForOperation optsPlain sampleFragments sampleOperation
          false :=
  outputModeContent_amended optsPlain sampleFragments sampleOperation rfl

/-- C7: on successful emission, the derived operation identifier is
computed, cached on the operation and emitted as
`operationIdentifier` iff `generateOperationIds` is set; with the flag
unset the operation is returned untouched (derivation is never
invoked) and no identifier declaration is emitted. -/
theorem operationIdGating (options : Options) (fragments : FragmentTable)
    (operation : Operation) (outputIndividualFiles : Bool)
    (cachedOperation : Operation) (decl : OperationClassDecl)
    (h : classDeclarationForOperation options fragments operation
        outputIndividualFiles = Except.ok (cachedOperation, decl)) :
    (options.generateOperationIds = true →
      cachedOperation.operationId
          = some (generateOperationId operation fragments
              (collectFragmentsReferenced operation.selectionSet fragments))
        ∧ decl.operationIdentifier = cachedOperation.operationId)
    ∧ (options.generateOperationIds = false →
      cachedOperation = operation ∧ decl.operationIdentifier = none) := by
  obtain ⟨hop, hid, -⟩ := classDeclarationForOperation_ok options fragments
    operation outputIndividualFiles cachedOperation decl h
  constructor
  · intro hg
    rw [hop, hid]
    simp [hg]
  · intro hg
    rw [hop, hid]
    simp [hg]

theorem operationIdGating_witness :
    sampleEmission.1.operationId
        = some (generateOperationId sampleOperation sampleFragments
            (collectFragmentsReferenced sampleOperation.selectionSet
              sampleFragments))
    ∧ sampleEmission.2.operationIdentifier = sampleEmission.1.operationId :=
  (operationIdGating optsIds sampleFragments sampleOperation false
    sampleEmission.1 sampleEmission.2 (by rfl)).1 rfl

/-- C8: emitting an operation leaves every IR field of the operation
unchanged except the derived `operationId`; the fragment table is
consumed read-only (the embedding takes it immutably), and name, kind,
variables, source, selection set and file path are all preserved. -/
theorem emissionFrame (options : Options) (fragments : FragmentTable)
    (operation : Operation) (outputIndividualFiles : Bool)
    (cachedOperation : Operation) (decl : OperationClassDecl)
    (h : classDeclarationForOperation options fragments operation
        outputIndividualFiles = Except.ok (cachedOperation, decl)) :
    cachedOperation.operationName = operation.operationName
    ∧ cachedOperation.operationType = operation.operationType
    ∧ cachedOperation.variables = operation.variables
    ∧ cachedOperation.source = operation.source
    ∧ cachedOperation.selectionSet = operation.selectionSet
    ∧ cachedOperation.filePath = operation.filePath := by
  obtain ⟨hop, -, -⟩ := classDeclarationForOperation_ok options fragments
    operation outputIndividualFiles cachedOperation decl h
  rw [hop]
  by_cases hg : options.generateOperationIds <;> simp [hg]

theorem emissionFrame_witness :
    sampleEmission.1.operationName = sampleOperation.operationName
    ∧ sampleEmission.1.operationType = sampleOperation.operationType
    ∧ sampleEmission.1.variables = sampleOperation.variables
    ∧ sampleEmission.1.source = sampleOperation.source
    ∧ sampleEmission.1.selectionSet = sampleOperation.selectionSet
    ∧ sampleEmission.1.filePath = sampleOperation.filePath :=
  emissionFrame optsIds sampleFragments sampleOperation false
    sampleEmission.1 sampleEmission.2 (by rfl)

end ApolloTooling
